import Mathlib

/-!
# Verification of the Coda MCP multi-tenant client

Shallow embedding of the credential-resolution and API-client layer of the
`primrose-mcp-coda` repository (`src/client.ts`, `src/index.ts`,
`src/types/env.ts`), together with theorems settling the spec claims about
credential isolation, pagination normalization, query/path building and
error classification.

JavaScript conventions used throughout the embedding:
- an `undefined`/`null`-able string is `Option String`: `none` stands for
  `undefined`/`null`;
- JS string truthiness (`if (s)`) is `jsTruthy`: `none` and `some ""` are
  falsy, everything else truthy;
- `x || y` on nullable strings is `jsOrElse`;
- the JS number `NaN` (as produced by `parseInt` on unparseable input) is
  modelled by `none : Option Int`.
-/

namespace CodaMcp

/-- JS string truthiness: `undefined`, `null` and `""` are falsy. -/
def jsTruthy : Option String → Bool
  | none => false
  | some s => !(s == "")

/-- JS `a || b` on a nullable string: keep `a` when truthy, else `b`. -/
def jsOrElse (a : Option String) (b : Option String) : Option String :=
  if jsTruthy a then a else b

/-- JS `parseInt(s, 10)`: skip leading whitespace, optional sign, then the
maximal run of decimal digits; `NaN` (here `none`) when no digit is found. -/
def jsParseInt (s : String) : Option Int :=
  let l := s.data.dropWhile (fun c => c == ' ' || c == '\t' || c == '\n' || c == '\r')
  let signAndRest : Int × List Char :=
    match l with
    | '-' :: r => (-1, r)
    | '+' :: r => (1, r)
    | _ => (1, l)
  let ds := signAndRest.2.takeWhile Char.isDigit
  if ds.isEmpty then none
  else some (signAndRest.1 * (ds.foldl (fun a c => a * 10 + ((c.toNat : Int) - 48)) 0))

-- =============================================================================
-- Error taxonomy
-- =============================================================================

/-- Modelled from the spec: the error classes of `src/utils/errors.ts` (a file
whose source is not in the repository snapshot; only its import from
`client.ts` and the spec's §7 taxonomy describe it).  The spec requires
`AuthenticationError`, `RateLimitError` (carrying retry-after seconds) and
`CodaApiError` (carrying the HTTP status) to be distinguishable by kind;
`jsError` is the built-in JS `Error` used by code that throws a plain error.
`retryAfterSeconds = none` models the JS number `NaN`. -/
inductive ThrownError where
  | jsError (message : String)
  | authenticationError (message : String)
  | rateLimitError (message : String) (retryAfterSeconds : Option Int)
  | codaApiError (message : String) (status : Nat)
  deriving DecidableEq, Repr

/-- Kind discriminator: is this error an `AuthenticationError` (`instanceof`
check, not message matching)? -/
def ThrownError.isAuthenticationError : ThrownError → Bool
  | .authenticationError _ => true
  | _ => false

/-- Kind discriminator: is this error a `RateLimitError`? -/
def ThrownError.isRateLimitError : ThrownError → Bool
  | .rateLimitError _ _ => true
  | _ => false

-- =============================================================================
-- Tenant credentials (src/types/env.ts)
-- =============================================================================

/-- `TenantCredentials` from `src/types/env.ts`: both fields optional. -/
structure TenantCredentials where
  apiKey : Option String
  baseUrl : Option String
  deriving DecidableEq, Repr

/-- ASCII lower-casing of one character (header names are ASCII). -/
def asciiLowerChar (c : Char) : Char :=
  if 'A' ≤ c && c ≤ 'Z' then Char.ofNat (c.toNat + 32) else c

/-- ASCII lower-casing of a header name. -/
def asciiLower (s : String) : String := String.mk (s.data.map asciiLowerChar)

/-- Inbound request headers as a name/value list; `headersGet` is the fetch
`Headers.get`, which is ASCII case-insensitive and returns `null` (`none`)
when the header is absent. -/
def headersGet (headers : List (String × String)) (name : String) : Option String :=
  (headers.find? (fun p => asciiLower p.1 == asciiLower name)).map Prod.snd

/-- `parseTenantCredentials` from `src/types/env.ts`:
`headers.get('X-Coda-API-Key') || undefined` for each field. -/
def parseTenantCredentials (headers : List (String × String)) : TenantCredentials :=
  { apiKey := jsOrElse (headersGet headers "X-Coda-API-Key") none
    baseUrl := jsOrElse (headersGet headers "X-Coda-Base-URL") none }

/-- `validateCredentials` from `src/types/env.ts`: `if (!credentials.apiKey)
throw new Error('Missing credentials. Provide X-Coda-API-Key header.')`.
Note the thrown value is the plain built-in `Error`, not an
`AuthenticationError`. -/
def validateCredentials (credentials : TenantCredentials) : Except ThrownError Unit :=
  if !(jsTruthy credentials.apiKey) then
    .error (.jsError "Missing credentials. Provide X-Coda-API-Key header.")
  else
    .ok ()

-- =============================================================================
-- Client construction (src/client.ts, CodaClientImpl)
-- =============================================================================

/-- `API_BASE_URL` from `src/client.ts`. -/
def API_BASE_URL : String := "https://coda.io/apis/v1"

/-- The private state of a `CodaClientImpl` instance: its own credentials and
the base URL resolved once at construction.  Nothing here is shared between
instances. -/
structure CodaClientState where
  credentials : TenantCredentials
  baseUrl : String
  deriving DecidableEq, Repr

/-- The `CodaClientImpl` constructor followed by `createCodaClient`:
`this.credentials = credentials; this.baseUrl = credentials.baseUrl || API_BASE_URL`. -/
def createCodaClient (credentials : TenantCredentials) : CodaClientState :=
  { credentials := credentials
    baseUrl := (jsOrElse credentials.baseUrl (some API_BASE_URL)).getD API_BASE_URL }

/-- `getAuthHeaders` from `src/client.ts`: when the stored `apiKey` is truthy,
return the `Authorization`/`Content-Type` header pair; otherwise throw an
`AuthenticationError`. -/
def getAuthHeaders (state : CodaClientState) : Except ThrownError (List (String × String)) :=
  match state.credentials.apiKey with
  | some key =>
    if !(key == "") then
      .ok [("Authorization", "Bearer " ++ key), ("Content-Type", "application/json")]
    else
      .error (.authenticationError "No credentials provided. Include X-Coda-API-Key header.")
  | none =>
    .error (.authenticationError "No credentials provided. Include X-Coda-API-Key header.")

/-- The outbound fetch call assembled by `request` before the transport runs:
the full URL `baseUrl + endpoint` and the merged header object
`{...getAuthHeaders(), ...(options.headers || {})}`.  No call site in the
repository passes `options.headers`, so the merge is modelled for the empty
extra-header list used throughout. -/
structure OutboundCall where
  url : String
  headers : List (String × String)
  deriving DecidableEq, Repr

/-- The part of `request` (src/client.ts) that runs before `fetch`: build the
auth headers (which may throw) and the URL.  An `.error` result means the
function threw before any outbound call was issued. -/
def buildOutboundCall (state : CodaClientState) (endpoint : String) :
    Except ThrownError OutboundCall :=
  match getAuthHeaders state with
  | .error e => .error e
  | .ok authHeaders => .ok { url := state.baseUrl ++ endpoint, headers := authHeaders }

-- =============================================================================
-- Response classification (src/client.ts, request)
-- =============================================================================

/-- The upstream HTTP response as `request` observes it.  `retryAfter` is
`response.headers.get('Retry-After')`.  `jsonMessage` abstracts the error-body
parse of lines 234-241: `some m` when the body text parses as JSON and a
truthy `message` or `error` field `m` is found, `none` otherwise (parse
failure, or no such field).  `bodyText` is the raw transport body, carried so
that theorems can quantify over it. -/
structure HttpResponse where
  status : Nat
  retryAfter : Option String
  jsonMessage : Option String
  bodyText : String
  deriving DecidableEq, Repr

/-- fetch's `response.ok`: status in the 200..299 success range. -/
def responseOk (status : Nat) : Bool := 200 ≤ status && status ≤ 299

/-- What `request` does with the response: throw a classified error, return
`undefined` without touching the body (204), or return `response.json()`. -/
inductive RequestOutcome where
  | thrown (e : ThrownError)
  | noContent
  | parseJsonBody
  deriving DecidableEq, Repr

/-- The retry-after argument of the `RateLimitError` thrown on 429:
`retryAfter ? parseInt(retryAfter, 10) : 60`.  The conditional tests the
truthiness of the header STRING, so a present-but-unparseable header reaches
`parseInt` and produces `NaN` (`none`), not the 60 default. -/
def retryAfterValue (header : Option String) : Option Int :=
  if jsTruthy header then jsParseInt (header.getD "") else some 60

/-- The response-classification cascade of `request` (src/client.ts lines
221-255), in source order: 429, then 401/403, then `!ok`, then 202, then 204,
then the default JSON parse. -/
def classifyResponse (r : HttpResponse) : RequestOutcome :=
  if r.status == 429 then
    .thrown (.rateLimitError "Rate limit exceeded" (retryAfterValue r.retryAfter))
  else if r.status == 401 || r.status == 403 then
    .thrown (.authenticationError "Authentication failed. Check your API credentials.")
  else if !(responseOk r.status) then
    .thrown (.codaApiError
      ((jsOrElse r.jsonMessage (some ("API error: " ++ toString r.status))).getD "")
      r.status)
  else if r.status == 202 then
    .parseJsonBody
  else if r.status == 204 then
    .noContent
  else
    .parseJsonBody

/-- The whole of `request` over an arbitrary transport: headers are built
first (failing before the transport is consulted), then the transport's
response is classified. -/
def requestExec (state : CodaClientState) (endpoint : String)
    (transport : OutboundCall → HttpResponse) : RequestOutcome :=
  match buildOutboundCall state endpoint with
  | .error e => .thrown e
  | .ok call => classifyResponse (transport call)

-- =============================================================================
-- Pagination normalization (src/client.ts, the nine list* operations)
-- =============================================================================

/-- The upstream list payload `{ items, nextPageToken?, nextPageLink? }` that
every listing endpoint returns; it carries no `hasMore` field. -/
structure UpstreamListPayload (α : Type) where
  items : List α
  nextPageToken : Option String
  nextPageLink : Option String

/-- `PaginatedResponse` from `src/types/entities.ts` (`total` is never set by
the client and stays `none`). -/
structure PaginatedResponse (α : Type) where
  items : List α
  nextPageLink : Option String
  nextPageToken : Option String
  total : Option Nat
  hasMore : Bool

/-- The response-shaping step of `listDocs`: items/token/link pass through,
`hasMore := !!response.nextPageToken`. -/
def listDocsResponse (p : UpstreamListPayload α) : PaginatedResponse α :=
  { items := p.items, nextPageToken := p.nextPageToken, nextPageLink := p.nextPageLink
    total := none, hasMore := jsTruthy p.nextPageToken }

/-- The response-shaping step of `listPages` (same inline code as `listDocs`). -/
def listPagesResponse (p : UpstreamListPayload α) : PaginatedResponse α :=
  { items := p.items, nextPageToken := p.nextPageToken, nextPageLink := p.nextPageLink
    total := none, hasMore := jsTruthy p.nextPageToken }

/-- The response-shaping step of `listTables`. -/
def listTablesResponse (p : UpstreamListPayload α) : PaginatedResponse α :=
  { items := p.items, nextPageToken := p.nextPageToken, nextPageLink := p.nextPageLink
    total := none, hasMore := jsTruthy p.nextPageToken }

/-- The response-shaping step of `listColumns`. -/
def listColumnsResponse (p : UpstreamListPayload α) : PaginatedResponse α :=
  { items := p.items, nextPageToken := p.nextPageToken, nextPageLink := p.nextPageLink
    total := none, hasMore := jsTruthy p.nextPageToken }

/-- The response-shaping step of `listRows`. -/
def listRowsResponse (p : UpstreamListPayload α) : PaginatedResponse α :=
  { items := p.items, nextPageToken := p.nextPageToken, nextPageLink := p.nextPageLink
    total := none, hasMore := jsTruthy p.nextPageToken }

/-- The response-shaping step of `listFormulas`. -/
def listFormulasResponse (p : UpstreamListPayload α) : PaginatedResponse α :=
  { items := p.items, nextPageToken := p.nextPageToken, nextPageLink := p.nextPageLink
    total := none, hasMore := jsTruthy p.nextPageToken }

/-- The response-shaping step of `listControls`. -/
def listControlsResponse (p : UpstreamListPayload α) : PaginatedResponse α :=
  { items := p.items, nextPageToken := p.nextPageToken, nextPageLink := p.nextPageLink
    total := none, hasMore := jsTruthy p.nextPageToken }

/-- The response-shaping step of `listAutomations`. -/
def listAutomationsResponse (p : UpstreamListPayload α) : PaginatedResponse α :=
  { items := p.items, nextPageToken := p.nextPageToken, nextPageLink := p.nextPageLink
    total := none, hasMore := jsTruthy p.nextPageToken }

/-- The response-shaping step of `listPermissions`. -/
def listPermissionsResponse (p : UpstreamListPayload α) : PaginatedResponse α :=
  { items := p.items, nextPageToken := p.nextPageToken, nextPageLink := p.nextPageLink
    total := none, hasMore := jsTruthy p.nextPageToken }

-- =============================================================================
-- Query-string construction (src/client.ts, buildQueryString)
-- =============================================================================

/-- A JS scalar value as it reaches `String(v)` in `buildQueryString`:
string, (integer) number, or boolean. -/
inductive JSPrim where
  | str (s : String)
  | num (n : Int)
  | bool (b : Bool)
  deriving DecidableEq, Repr

/-- JS `String(v)` on a scalar. -/
def JSPrim.jsString : JSPrim → String
  | .str s => s
  | .num n => toString n
  | .bool b => if b then "true" else "false"

/-- A value of the plain parameter object passed to `buildQueryString`:
`undefined`, `null`, a scalar, or an array of scalars. -/
inductive JSValue where
  | undefined
  | null
  | prim (p : JSPrim)
  | arr (elems : List JSPrim)
  deriving DecidableEq, Repr

/-- The internal name/value list of a `URLSearchParams` object. -/
abbrev URLSearchPairs := List (String × String)

/-- `URLSearchParams.append`: add a pair at the end of the list. -/
def uspAppend (l : URLSearchPairs) (k v : String) : URLSearchPairs :=
  l ++ [(k, v)]

/-- `URLSearchParams.set` (WHATWG): overwrite the first pair with this name
and drop the others; append when the name is absent. -/
def uspSet : URLSearchPairs → String → String → URLSearchPairs
  | [], k, v => [(k, v)]
  | (k0, v0) :: rest, k, v =>
    if k0 = k then (k, v) :: rest.filter (fun p => p.1 ≠ k)
    else (k0, v0) :: uspSet rest k v

/-- The loop body of `buildQueryString` for one `Object.entries` pair:
skip `undefined`/`null`, `append` once per array element, `set` otherwise. -/
def buildQueryStep (q : URLSearchPairs) (entry : String × JSValue) : URLSearchPairs :=
  match entry.2 with
  | .undefined => q
  | .null => q
  | .arr vs => vs.foldl (fun q0 v => uspAppend q0 entry.1 v.jsString) q
  | .prim p => uspSet q entry.1 p.jsString

/-- The `URLSearchParams` built by `buildQueryString`'s loop over the
parameter object's entries. -/
def buildQueryPairs (params : List (String × JSValue)) : URLSearchPairs :=
  params.foldl buildQueryStep []

/-- The characters the urlencoded serializer leaves unescaped:
`A-Z a-z 0-9 * - . _` (space becomes `+`, everything else is
percent-encoded). -/
def formUrlSafe (c : Char) : Bool :=
  c.isAlpha || c.isDigit || c == '*' || c == '-' || c == '.' || c == '_'

/-- One hex digit, uppercase. -/
def hexDigit : Nat → Char
  | 0 => '0' | 1 => '1' | 2 => '2' | 3 => '3' | 4 => '4' | 5 => '5' | 6 => '6' | 7 => '7'
  | 8 => '8' | 9 => '9' | 10 => 'A' | 11 => 'B' | 12 => 'C' | 13 => 'D' | 14 => 'E'
  | 15 => 'F' | _ => '0'

/-- `%XX` escape of one byte. -/
def percentEncodeByte (b : Nat) : List Char :=
  ['%', hexDigit (b / 16), hexDigit (b % 16)]

/-- UTF-8 bytes of one character (standard 1-4 byte encoding). -/
def utf8Bytes (c : Char) : List Nat :=
  let n := c.toNat
  if n < 0x80 then [n]
  else if n < 0x800 then
    [0xC0 + n / 0x40, 0x80 + n % 0x40]
  else if n < 0x10000 then
    [0xE0 + n / 0x1000, 0x80 + (n / 0x40) % 0x40, 0x80 + n % 0x40]
  else
    [0xF0 + n / 0x40000, 0x80 + (n / 0x1000) % 0x40, 0x80 + (n / 0x40) % 0x40,
     0x80 + n % 0x40]

/-- One character under the application/x-www-form-urlencoded serializer used
by `URLSearchParams.toString`. -/
def formEncodeChar (c : Char) : List Char :=
  if formUrlSafe c then [c]
  else if c == ' ' then ['+']
  else (utf8Bytes c).flatMap percentEncodeByte

/-- A whole string under the urlencoded serializer. -/
def formUrlEncode (s : String) : String :=
  String.mk (s.data.flatMap formEncodeChar)

/-- One `name=value` component of `URLSearchParams.toString`. -/
def serializePair (p : String × String) : String :=
  formUrlEncode p.1 ++ "=" ++ formUrlEncode p.2

/-- `URLSearchParams.toString`: the components joined with `&`. -/
def serializePairs : URLSearchPairs → String
  | [] => ""
  | [p] => serializePair p
  | p :: q :: rest => serializePair p ++ "&" ++ serializePairs (q :: rest)

/-- `buildQueryString` from `src/client.ts`: build the `URLSearchParams`,
serialize, and prepend `?` only when the serialization is non-empty. -/
def buildQueryString (params : List (String × JSValue)) : String :=
  let queryString := serializePairs (buildQueryPairs params)
  if queryString == "" then "" else "?" ++ queryString

/-- The spec's description of one parameter entry (§4.2 query-string
construction): an absent/null value contributes nothing, a sequence value
contributes one repeated `key=value` pair per element in order, and any other
value contributes one pair with the value stringified directly.  This is the
reference against which the `URLSearchParams`-based loop is compared. -/
def expandEntry (entry : String × JSValue) : List (String × String) :=
  match entry.2 with
  | .undefined => []
  | .null => []
  | .arr vs => vs.map (fun v => (entry.1, v.jsString))
  | .prim p => [(entry.1, p.jsString)]

-- =============================================================================
-- Path-segment encoding (encodeURIComponent and the path templates)
-- =============================================================================

/-- The characters `encodeURIComponent` leaves unescaped (ECMA-262):
alphanumerics and `- _ . ! ~ * ' ( )`. -/
def uriUnreserved (c : Char) : Bool :=
  c.isAlpha || c.isDigit || c == '-' || c == '_' || c == '.' || c == '!' ||
  c == '~' || c == '*' || c == Char.ofNat 39 || c == '(' || c == ')'

/-- One character under `encodeURIComponent`: kept when unreserved, otherwise
each UTF-8 byte is `%XX`-escaped. -/
def uriEncodeChar (c : Char) : List Char :=
  if uriUnreserved c then [c] else (utf8Bytes c).flatMap percentEncodeByte

/-- `encodeURIComponent`. -/
def encodeURIComponent (s : String) : String :=
  String.mk (s.data.flatMap uriEncodeChar)

/-- The path built by `getRow` (src/client.ts lines 442-452): three encoded
identifier segments plus the optional `useColumnNames` query suffix. -/
def getRowPath (docId tableIdOrName rowIdOrName : String) (useColumnNames : Bool) : String :=
  "/docs/" ++ encodeURIComponent docId ++
  "/tables/" ++ encodeURIComponent tableIdOrName ++
  "/rows/" ++ encodeURIComponent rowIdOrName ++
  (if useColumnNames then "?useColumnNames=true" else "")

/-- The path built by `pushButton` (src/client.ts lines 506-518): four encoded
identifier segments. -/
def pushButtonPath (docId tableIdOrName rowIdOrName columnIdOrName : String) : String :=
  "/docs/" ++ encodeURIComponent docId ++
  "/tables/" ++ encodeURIComponent tableIdOrName ++
  "/rows/" ++ encodeURIComponent rowIdOrName ++
  "/buttons/" ++ encodeURIComponent columnIdOrName

/-- Occurrences of a character in a string (used to count path segments:
the number of segments of these paths is the number of `/` characters). -/
def charCount (c : Char) (s : String) : Nat := s.data.count c

-- =============================================================================
-- Worker fetch handler (src/index.ts)
-- =============================================================================

/-- The inbound request as the Worker's `fetch` handler inspects it. -/
structure InboundRequest where
  method : String
  path : String
  headers : List (String × String)
  deriving DecidableEq, Repr

/-- What the `fetch` handler in `src/index.ts` does with a request.  An MCP
request that passes validation constructs a stateless server whose client is
`createCodaClient credentials` — `mcpHandled` carries that client; the 401
branch carries the fields of the JSON error body it serializes. -/
inductive FetchOutcome where
  | healthResponse
  | unauthorized (status : Nat) (errorLabel : String) (message : String)
      (requiredHeaders : List String)
  | mcpHandled (client : CodaClientState)
  | sseNotImplemented (status : Nat)
  | infoResponse
  deriving DecidableEq, Repr

/-- The routing and credential-validation logic of the Worker `fetch` handler
(src/index.ts lines 137-261). -/
def workerFetch (req : InboundRequest) : FetchOutcome :=
  if req.path == "/health" then
    .healthResponse
  else if req.path == "/mcp" && req.method == "POST" then
    let credentials := parseTenantCredentials req.headers
    match validateCredentials credentials with
    | .error e =>
      .unauthorized 401 "Unauthorized"
        (match e with
         | .jsError m => m
         | .authenticationError m => m
         | .rateLimitError m _ => m
         | .codaApiError m _ => m)
        ["X-Coda-API-Key"]
    | .ok _ => .mcpHandled (createCodaClient credentials)
  else if req.path == "/sse" then
    .sseNotImplemented 501
  else
    .infoResponse

-- =============================================================================
-- Statement-side definitions
-- =============================================================================

/-- The pagination shape every listing operation must produce: `hasMore` holds
iff the upstream payload had a non-empty `nextPageToken`, and items, token and
link pass through unchanged (in particular the items order is preserved and
`hasMore` is computed, not read from the payload, which has no such field). -/
def PaginationNormalized (shape : {α : Type} → UpstreamListPayload α → PaginatedResponse α) :
    Prop :=
  ∀ (α : Type) (p : UpstreamListPayload α),
    ((shape p).hasMore = true ↔ ∃ s, p.nextPageToken = some s ∧ s ≠ "") ∧
    (shape p).items = p.items ∧
    (shape p).nextPageToken = p.nextPageToken ∧
    (shape p).nextPageLink = p.nextPageLink

-- =============================================================================
-- Helper lemmas
-- =============================================================================

/-- JS truthiness of a nullable string is exactly "present and non-empty". -/
theorem jsTruthy_eq_true_iff (o : Option String) :
    jsTruthy o = true ↔ ∃ s, o = some s ∧ s ≠ "" := by
  cases o <;> simp [jsTruthy]

/-- `URLSearchParams.set` on a list that does not contain the name is a plain
append. -/
theorem uspSet_of_not_mem (l : URLSearchPairs) (k v : String) (h : ∀ p ∈ l, p.1 ≠ k) :
    uspSet l k v = l ++ [(k, v)] := by
  induction l with
  | nil => rfl
  | cons p rest ih =>
    obtain ⟨k0, v0⟩ := p
    have hp : k0 ≠ k := h (k0, v0) (List.mem_cons_self _ _)
    simp only [uspSet, if_neg hp]
    rw [ih (fun q hq => h q (List.mem_cons_of_mem _ hq))]
    simp

/-- Folding `append` over the elements of an array value appends one pair per
element, in order. -/
theorem foldl_uspAppend (vs : List JSPrim) (k : String) (acc : URLSearchPairs) :
    vs.foldl (fun q0 v => uspAppend q0 k v.jsString) acc =
      acc ++ vs.map (fun v => (k, v.jsString)) := by
  induction vs generalizing acc with
  | nil => simp
  | cons v rest ih =>
    simp only [List.foldl_cons]
    rw [ih (uspAppend acc k v.jsString)]
    simp [uspAppend, List.append_assoc]

/-- The `buildQueryString` loop, started from any accumulator whose names are
disjoint from the (duplicate-free) remaining parameter names, appends exactly
the expansion of each entry. -/
theorem buildQueryPairs_go (ps : List (String × JSValue)) (acc : URLSearchPairs)
    (hnd : (ps.map Prod.fst).Nodup)
    (hdisj : ∀ q ∈ acc, ∀ e ∈ ps, q.1 ≠ e.1) :
    ps.foldl buildQueryStep acc = acc ++ ps.flatMap expandEntry := by
  induction ps generalizing acc with
  | nil => simp
  | cons e rest ih =>
    obtain ⟨k, v⟩ := e
    simp only [List.map_cons, List.nodup_cons] at hnd
    obtain ⟨hknotin, hnd'⟩ := hnd
    have hdisj_rest : ∀ q ∈ acc, ∀ e2 ∈ rest, q.1 ≠ e2.1 :=
      fun q hq e2 he2 => hdisj q hq e2 (List.mem_cons_of_mem _ he2)
    have hacck : ∀ p ∈ acc, p.1 ≠ k :=
      fun p hp => hdisj p hp (k, v) (List.mem_cons_self _ _)
    cases v with
    | undefined =>
      simp only [List.foldl_cons, buildQueryStep]
      rw [ih acc hnd' hdisj_rest]
      simp [expandEntry]
    | null =>
      simp only [List.foldl_cons, buildQueryStep]
      rw [ih acc hnd' hdisj_rest]
      simp [expandEntry]
    | prim p =>
      simp only [List.foldl_cons, buildQueryStep]
      rw [uspSet_of_not_mem acc k p.jsString hacck]
      rw [ih (acc ++ [(k, p.jsString)]) hnd' ?_]
      · simp [expandEntry, List.append_assoc]
      · intro q hq e2 he2
        rcases List.mem_append.mp hq with hq | hq
        · exact hdisj_rest q hq e2 he2
        · simp only [List.mem_singleton] at hq
          subst hq
          intro hcontra
          have hk : k = e2.1 := hcontra
          apply hknotin
          rw [hk]
          exact List.mem_map_of_mem Prod.fst he2
    | arr vs =>
      simp only [List.foldl_cons, buildQueryStep]
      rw [foldl_uspAppend]
      rw [ih (acc ++ vs.map fun v0 => (k, v0.jsString)) hnd' ?_]
      · simp [expandEntry, List.append_assoc]
      · intro q hq e2 he2
        rcases List.mem_append.mp hq with hq | hq
        · exact hdisj_rest q hq e2 he2
        · obtain ⟨v0, _, hv0⟩ := List.mem_map.mp hq
          intro hcontra
          have hqk : q.1 = k := by rw [← hv0]
          apply hknotin
          rw [hqk.symm.trans hcontra]
          exact List.mem_map_of_mem Prod.fst he2

/-- A serialized non-empty pair list is a non-empty string (every component
contains at least the `=`). -/
theorem serializePairs_cons_ne_empty (p : String × String) (l : URLSearchPairs) :
    serializePairs (p :: l) ≠ "" := by
  cases l with
  | nil =>
    intro h
    have hd := congrArg String.data h
    simp [serializePairs, serializePair, String.data_append] at hd
  | cons q rest =>
    intro h
    have hd := congrArg String.data h
    simp [serializePairs, serializePair, String.data_append] at hd

/-- `hexDigit` never produces a path-structure character. -/
theorem hexDigit_not_special (n : Nat) :
    hexDigit n ≠ '/' ∧ hexDigit n ≠ '?' ∧ hexDigit n ≠ ' ' := by
  unfold hexDigit
  split <;> exact ⟨by decide, by decide, by decide⟩

/-- A `%XX` escape consists of `%` and hex digits only — never a path
structure character. -/
theorem percentEncodeByte_not_special (b : Nat) :
    ∀ c ∈ percentEncodeByte b, c ≠ '/' ∧ c ≠ '?' ∧ c ≠ ' ' := by
  intro c hc
  simp only [percentEncodeByte, List.mem_cons, List.mem_singleton, List.not_mem_nil,
    or_false] at hc
  rcases hc with rfl | rfl | rfl
  · exact ⟨by decide, by decide, by decide⟩
  · exact hexDigit_not_special _
  · exact hexDigit_not_special _

/-- No character emitted by `encodeURIComponent` for any input character is
`/`, `?` or a space. -/
theorem uriEncodeChar_not_special (a : Char) :
    ∀ c ∈ uriEncodeChar a, c ≠ '/' ∧ c ≠ '?' ∧ c ≠ ' ' := by
  intro c hc
  unfold uriEncodeChar at hc
  split at hc
  · rename_i h
    simp only [List.mem_singleton] at hc
    subst hc
    refine ⟨fun heq => ?_, fun heq => ?_, fun heq => ?_⟩ <;>
      (subst heq; exact absurd h (by decide))
  · rw [List.mem_flatMap] at hc
    obtain ⟨b, _, hcb⟩ := hc
    exact percentEncodeByte_not_special b c hcb

/-- The encoded form of any identifier contains no occurrence of the given
path-structure character. -/
theorem count_encodeURIComponent_eq_zero (s : String) (c : Char)
    (hc : c = '/' ∨ c = '?' ∨ c = ' ') :
    (encodeURIComponent s).data.count c = 0 := by
  apply List.count_eq_zero.mpr
  intro hmem
  have hmem2 : c ∈ s.data.flatMap uriEncodeChar := hmem
  rw [List.mem_flatMap] at hmem2
  obtain ⟨a, _, hca⟩ := hmem2
  have h3 := uriEncodeChar_not_special a c hca
  rcases hc with rfl | rfl | rfl
  · exact h3.1 rfl
  · exact h3.2.1 rfl
  · exact h3.2.2 rfl

/-- A member's image under the map of a flat-map is an inner factor of the
result. -/
theorem flatMap_factor_of_mem {α β : Type} (f : α → List β) (a : α) (l : List α)
    (h : a ∈ l) : ∃ p q, l.flatMap f = p ++ f a ++ q := by
  induction l with
  | nil => cases h
  | cons x xs ih =>
    rcases List.mem_cons.mp h with rfl | hmem
    · exact ⟨[], xs.flatMap f, by simp⟩
    · obtain ⟨p, q, hpq⟩ := ih hmem
      exact ⟨f x ++ p, q, by rw [List.flatMap_cons, hpq]; simp [List.append_assoc]⟩

-- =============================================================================
-- Claim theorems
-- =============================================================================

/-- C1: two API Client instances constructed with different keys each build
their Authorization header from their own constructor-supplied key: for every
endpoint, client A's outbound call carries exactly `Bearer K1` (plus the JSON
content type) and client B's carries exactly `Bearer K2`, and when the keys
differ the two headers differ — the credentials live only in each instance's
own state, so no interleaving can mix them. -/
theorem C1_credential_isolation (k1 k2 : String) (b1 b2 : Option String) (e1 e2 : String)
    (h1 : k1 ≠ "") (h2 : k2 ≠ "") (hne : k1 ≠ k2) :
    (∃ u, buildOutboundCall (createCodaClient { apiKey := some k1, baseUrl := b1 }) e1 =
      .ok { url := u,
            headers := [("Authorization", "Bearer " ++ k1),
                        ("Content-Type", "application/json")] }) ∧
    (∃ u, buildOutboundCall (createCodaClient { apiKey := some k2, baseUrl := b2 }) e2 =
      .ok { url := u,
            headers := [("Authorization", "Bearer " ++ k2),
                        ("Content-Type", "application/json")] }) ∧
    "Bearer " ++ k1 ≠ "Bearer " ++ k2 := by
  have hb1 : (k1 == "") = false := beq_eq_false_iff_ne.mpr h1
  have hb2 : (k2 == "") = false := beq_eq_false_iff_ne.mpr h2
  refine ⟨⟨(createCodaClient { apiKey := some k1, baseUrl := b1 }).baseUrl ++ e1, ?_⟩,
         ⟨(createCodaClient { apiKey := some k2, baseUrl := b2 }).baseUrl ++ e2, ?_⟩, ?_⟩
  · simp [buildOutboundCall, getAuthHeaders, createCodaClient, hb1]
  · simp [buildOutboundCall, getAuthHeaders, createCodaClient, hb2]
  · intro h
    apply hne
    have hd := congrArg String.data h
    simp only [String.data_append] at hd
    exact String.ext (by simpa using hd)

/-- C1 witness: concrete clients with keys `K1` and `K2`. -/
theorem C1_witness :
    (∃ u, buildOutboundCall (createCodaClient { apiKey := some "K1", baseUrl := none }) "/whoami" =
      .ok { url := u,
            headers := [("Authorization", "Bearer " ++ "K1"),
                        ("Content-Type", "application/json")] }) ∧
    "Bearer " ++ "K1" ≠ "Bearer " ++ "K2" := by
  have h := C1_credential_isolation "K1" "K2" none none "/whoami" "/whoami"
    (by decide) (by decide) (by decide)
  exact ⟨h.1, h.2.2⟩

/-- C2: every listing operation returns a paginated response whose `hasMore`
is true iff the upstream payload carried a non-empty `nextPageToken`, with
items (in order), `nextPageToken` and `nextPageLink` passed through unchanged
and `hasMore` derived by the client. -/
theorem C2_pagination_normalization :
    PaginationNormalized @listDocsResponse ∧
    PaginationNormalized @listPagesResponse ∧
    PaginationNormalized @listTablesResponse ∧
    PaginationNormalized @listColumnsResponse ∧
    PaginationNormalized @listRowsResponse ∧
    PaginationNormalized @listFormulasResponse ∧
    PaginationNormalized @listControlsResponse ∧
    PaginationNormalized @listAutomationsResponse ∧
    PaginationNormalized @listPermissionsResponse := by
  refine ⟨?_, ?_, ?_, ?_, ?_, ?_, ?_, ?_, ?_⟩ <;>
    exact fun α p => ⟨jsTruthy_eq_true_iff _, rfl, rfl, rfl⟩

/-- C5 counterexample: a 429 response whose `Retry-After` header is present
but unparseable (`"abc"`) produces a `RateLimitError` carrying `NaN`
(modelled `none`), not the claimed default of 60 — the code only defaults
when the header string is falsy. -/
theorem C5_counterexample :
    classifyResponse
        { status := 429, retryAfter := some "abc", jsonMessage := none, bodyText := "" } =
      .thrown (.rateLimitError "Rate limit exceeded" none) ∧
    classifyResponse
        { status := 429, retryAfter := some "abc", jsonMessage := none, bodyText := "" } ≠
      .thrown (.rateLimitError "Rate limit exceeded" (some 60)) := by
  exact ⟨by decide, by decide⟩

/-- C5 amended: every 429 response fails with a `RateLimitError` whose
retry-after value is `parseInt` of the `Retry-After` header when that header
is present and non-empty (hence `NaN` when unparseable, e.g. 30 for `"30"`),
and defaults to 60 only when the header is absent or empty; no other status
produces a `RateLimitError`. -/
theorem C5_rate_limit_amended (r : HttpResponse) :
    (r.status = 429 →
      classifyResponse r =
        .thrown (.rateLimitError "Rate limit exceeded" (retryAfterValue r.retryAfter))) ∧
    retryAfterValue none = some 60 ∧
    retryAfterValue (some "") = some 60 ∧
    (∀ s, s ≠ "" → retryAfterValue (some s) = jsParseInt s) ∧
    retryAfterValue (some "30") = some 30 ∧
    (r.status ≠ 429 → ∀ m v, classifyResponse r ≠ .thrown (.rateLimitError m v)) := by
  refine ⟨?_, by decide, by decide, ?_, by decide, ?_⟩
  · intro h
    simp [classifyResponse, h]
  · intro s hs
    simp [retryAfterValue, jsTruthy, hs]
  · intro h m v hcontra
    unfold classifyResponse at hcontra
    split at hcontra
    · simp_all
    · split at hcontra
      · simp_all
      · split at hcontra
        · simp_all
        · split at hcontra
          · simp_all
          · split at hcontra <;> simp_all

/-- C5 witness: a 429 response with `Retry-After: 30` yields retry-after 30. -/
theorem C5_witness :
    classifyResponse
        { status := 429, retryAfter := some "30", jsonMessage := none, bodyText := "" } =
      .thrown (.rateLimitError "Rate limit exceeded" (some 30)) := by
  have h := (C5_rate_limit_amended
    { status := 429, retryAfter := some "30", jsonMessage := none, bodyText := "" }).1 rfl
  rw [h]
  decide

/-- C6 counterexample: on credentials with no `apiKey`, `validateCredentials`
throws the plain built-in `Error`, which is not an `AuthenticationError`-kind
signal distinguishable by kind. -/
theorem C6_counterexample :
    validateCredentials { apiKey := none, baseUrl := none } =
      .error (.jsError "Missing credentials. Provide X-Coda-API-Key header.") ∧
    ThrownError.isAuthenticationError
      (.jsError "Missing credentials. Provide X-Coda-API-Key header.") = false :=
  ⟨rfl, rfl⟩

/-- C6 amended: `validateCredentials` fails exactly when the resolved
credentials carry no truthy `apiKey` (absent or empty), succeeds silently
whenever a non-empty key is present — but the failure signal is the generic
`Error` kind, never an `AuthenticationError` kind. -/
theorem C6_validate_amended (c : TenantCredentials) :
    (validateCredentials c =
        .error (.jsError "Missing credentials. Provide X-Coda-API-Key header.") ↔
      c.apiKey = none ∨ c.apiKey = some "") ∧
    ((∃ k, c.apiKey = some k ∧ k ≠ "") → validateCredentials c = .ok ()) ∧
    (∀ e, validateCredentials c = .error e → e.isAuthenticationError = false) := by
  obtain ⟨key, base⟩ := c
  cases key with
  | none =>
    refine ⟨by simp [validateCredentials, jsTruthy], by simp, ?_⟩
    intro e he
    simp only [validateCredentials, jsTruthy, Bool.not_false, if_pos] at he
    cases he
    rfl
  | some s =>
    by_cases hs : s = ""
    · subst hs
      refine ⟨by simp [validateCredentials, jsTruthy], by simp, ?_⟩
      intro e he
      simp only [validateCredentials, jsTruthy] at he
      cases he
      rfl
    · have hb : (s == "") = false := beq_eq_false_iff_ne.mpr hs
      refine ⟨by simp [validateCredentials, jsTruthy, hb, hs], ?_, ?_⟩
      · intro _
        simp [validateCredentials, jsTruthy, hb]
      · intro e he
        simp [validateCredentials, jsTruthy, hb] at he

/-- C6 witness: a non-empty key validates silently; absent key yields the
generic error. -/
theorem C6_witness :
    validateCredentials { apiKey := some "K1", baseUrl := none } = .ok () ∧
    validateCredentials { apiKey := none, baseUrl := none } =
      .error (.jsError "Missing credentials. Provide X-Coda-API-Key header.") := by
  exact ⟨(C6_validate_amended _).2.1 ⟨"K1", rfl, by decide⟩,
         (C6_validate_amended { apiKey := none, baseUrl := none }).1.mpr (Or.inl rfl)⟩

/-- C7: a POST to `/mcp` whose headers lack `X-Coda-API-Key` is answered with
exactly HTTP 401 and a JSON body naming the required header, and no API
Client is constructed for that request. -/
theorem C7_unauthorized (req : InboundRequest) (hm : req.method = "POST")
    (hp : req.path = "/mcp") (hh : headersGet req.headers "X-Coda-API-Key" = none) :
    workerFetch req =
      .unauthorized 401 "Unauthorized" "Missing credentials. Provide X-Coda-API-Key header."
        ["X-Coda-API-Key"] ∧
    ∀ client, workerFetch req ≠ .mcpHandled client := by
  obtain ⟨m, p, hs⟩ := req
  simp only at hm hp hh
  subst hm
  subst hp
  have hmain : workerFetch { method := "POST", path := "/mcp", headers := hs } =
      .unauthorized 401 "Unauthorized" "Missing credentials. Provide X-Coda-API-Key header."
        ["X-Coda-API-Key"] := by
    simp [workerFetch, parseTenantCredentials, validateCredentials, jsOrElse, jsTruthy, hh]
  exact ⟨hmain, fun client => by simp [hmain]⟩

/-- C7 witness: the concrete headerless POST to `/mcp`. -/
theorem C7_witness :
    workerFetch { method := "POST", path := "/mcp", headers := [] } =
      .unauthorized 401 "Unauthorized" "Missing credentials. Provide X-Coda-API-Key header."
        ["X-Coda-API-Key"] :=
  (C7_unauthorized { method := "POST", path := "/mcp", headers := [] } rfl rfl rfl).1

/-- C8: every response with status 204 makes the request executor return the
empty result without parsing the body (whatever the transport put there), and
the `noContent` outcome arises only at status 204 — after the 429, 401/403
and non-success classifications have not applied (204 is in the success
range). -/
theorem C8_no_content (r : HttpResponse) :
    (r.status = 204 → classifyResponse r = .noContent) ∧
    (classifyResponse r = .noContent →
      r.status = 204 ∧ r.status ≠ 429 ∧ r.status ≠ 401 ∧ r.status ≠ 403 ∧
        responseOk r.status = true) := by
  constructor
  · intro h
    simp [classifyResponse, h, responseOk]
  · intro h
    unfold classifyResponse at h
    split at h
    · simp_all
    · split at h
      · simp_all
      · split at h
        · simp_all
        · split at h
          · simp_all
          · split at h
            · simp_all [responseOk]
            · simp_all

/-- C8 witness: a 204 response carrying a non-empty transport body still
yields the empty result. -/
theorem C8_witness :
    classifyResponse
        { status := 204, retryAfter := none, jsonMessage := none,
          bodyText := "unparsed leftover body" } = .noContent :=
  (C8_no_content _).1 rfl

/-- C9 counterexample: a client constructed directly from credentials whose
stored `apiKey` is the empty string does not build `Bearer` headers from the
stored key as the claim requires for every stored key — it throws the
`AuthenticationError` instead (JS truthiness treats `""` as no key). -/
theorem C9_counterexample :
    getAuthHeaders (createCodaClient { apiKey := some "", baseUrl := none }) =
      .error (.authenticationError "No credentials provided. Include X-Coda-API-Key header.") ∧
    getAuthHeaders (createCodaClient { apiKey := some "", baseUrl := none }) ≠
      .ok [("Authorization", "Bearer "), ("Content-Type", "application/json")] := by
  refine ⟨rfl, fun h => ?_⟩
  rw [show getAuthHeaders (createCodaClient { apiKey := some "", baseUrl := none }) =
    Except.error
      (.authenticationError "No credentials provided. Include X-Coda-API-Key header.")
    from rfl] at h
  exact Except.noConfusion h

/-- C9 amended: a client whose credentials hold no `apiKey` — absent or empty
— fails every operation with an `AuthenticationError` before the outbound
call is issued (the outcome is the same for every transport, which is never
consulted); when a non-empty key is stored, the built headers are exactly
`Authorization: Bearer <key>` and `Content-Type: application/json`. -/
theorem C9_auth_headers_amended (c : TenantCredentials) (endpoint : String) :
    ((c.apiKey = none ∨ c.apiKey = some "") →
      buildOutboundCall (createCodaClient c) endpoint =
        .error (.authenticationError "No credentials provided. Include X-Coda-API-Key header.") ∧
      ∀ transport, requestExec (createCodaClient c) endpoint transport =
        .thrown (.authenticationError "No credentials provided. Include X-Coda-API-Key header.")) ∧
    (∀ k, c.apiKey = some k → k ≠ "" →
      getAuthHeaders (createCodaClient c) =
        .ok [("Authorization", "Bearer " ++ k), ("Content-Type", "application/json")]) := by
  constructor
  · rintro (h | h) <;>
      exact ⟨by simp [buildOutboundCall, getAuthHeaders, createCodaClient, h],
             fun transport => by
               simp [requestExec, buildOutboundCall, getAuthHeaders, createCodaClient, h]⟩
  · intro k hk hne
    have hb : (k == "") = false := beq_eq_false_iff_ne.mpr hne
    simp [getAuthHeaders, createCodaClient, hk, hb]

/-- C9 witness: the keyless client fails for an arbitrary transport; the
keyed client gets its Bearer headers. -/
theorem C9_witness :
    requestExec (createCodaClient { apiKey := none, baseUrl := none }) "/whoami"
        (fun _ => { status := 200, retryAfter := none, jsonMessage := none, bodyText := "{}" }) =
      .thrown (.authenticationError "No credentials provided. Include X-Coda-API-Key header.") ∧
    getAuthHeaders (createCodaClient { apiKey := some "K1", baseUrl := none }) =
      .ok [("Authorization", "Bearer " ++ "K1"), ("Content-Type", "application/json")] := by
  exact ⟨((C9_auth_headers_amended { apiKey := none, baseUrl := none } "/whoami").1
            (Or.inl rfl)).2 _,
         (C9_auth_headers_amended { apiKey := some "K1", baseUrl := none } "/whoami").2
           "K1" rfl (by decide)⟩

/-- C10: empty-string headers are normalized to absent — an empty
`X-Coda-API-Key` parses to no key and the `/mcp` POST is rejected with the
same 401 response as a missing header; an empty `X-Coda-Base-URL` parses to
no base URL, and a client constructed with an empty (or absent) `baseUrl`
resolves to the fixed default base URL. -/
theorem C10_empty_normalization (headers : List (String × String)) (c : TenantCredentials) :
    (headersGet headers "X-Coda-API-Key" = some "" →
      (parseTenantCredentials headers).apiKey = none ∧
      workerFetch { method := "POST", path := "/mcp", headers := headers } =
        .unauthorized 401 "Unauthorized" "Missing credentials. Provide X-Coda-API-Key header."
          ["X-Coda-API-Key"]) ∧
    (headersGet headers "X-Coda-Base-URL" = some "" →
      (parseTenantCredentials headers).baseUrl = none) ∧
    (c.baseUrl = some "" → (createCodaClient c).baseUrl = API_BASE_URL) ∧
    (c.baseUrl = none → (createCodaClient c).baseUrl = API_BASE_URL) := by
  refine ⟨fun h => ⟨?_, ?_⟩, fun h => ?_, fun h => ?_, fun h => ?_⟩
  · simp [parseTenantCredentials, jsOrElse, jsTruthy, h]
  · simp [workerFetch, parseTenantCredentials, validateCredentials, jsOrElse, jsTruthy, h]
  · simp [parseTenantCredentials, jsOrElse, jsTruthy, h]
  · simp [createCodaClient, jsOrElse, jsTruthy, h]
  · simp [createCodaClient, jsOrElse, jsTruthy, h]

/-- C10 witness: a concretely empty `X-Coda-API-Key` header is rejected with
the 401 body, and an empty base URL falls back to the default. -/
theorem C10_witness :
    workerFetch
        { method := "POST", path := "/mcp", headers := [("X-Coda-API-Key", "")] } =
      .unauthorized 401 "Unauthorized" "Missing credentials. Provide X-Coda-API-Key header."
        ["X-Coda-API-Key"] ∧
    (createCodaClient { apiKey := none, baseUrl := some "" }).baseUrl = API_BASE_URL := by
  exact ⟨((C10_empty_normalization [("X-Coda-API-Key", "")]
            { apiKey := none, baseUrl := some "" }).1 (by decide)).2,
         (C10_empty_normalization [] { apiKey := none, baseUrl := some "" }).2.2.1 rfl⟩

/-- C3: for every parameter mapping (JS object entries, hence duplicate-free
keys) the query builder omits absent/null-valued keys entirely, expands a
sequence value into one repeated `key=value` pair per element in order (so
`{tags: [a, b]}` gives `tags=a&tags=b`, never `tags=a,b`), stringifies every
other value directly, returns the empty string with no leading `?` when the
resulting parameter set is empty, and otherwise begins with `?`. -/
theorem C3_query_string (params : List (String × JSValue))
    (hnd : (params.map Prod.fst).Nodup) :
    buildQueryPairs params = params.flatMap expandEntry ∧
    (buildQueryString params = "" ↔ params.flatMap expandEntry = []) ∧
    (params.flatMap expandEntry ≠ [] →
      ∃ rest, buildQueryString params = "?" ++ rest) ∧
    buildQueryString [("tags", .arr [.str "a", .str "b"])] = "?tags=a&tags=b" := by
  have hpairs : buildQueryPairs params = params.flatMap expandEntry :=
    buildQueryPairs_go params [] hnd (by simp)
  cases hcase : params.flatMap expandEntry with
  | nil =>
    have hempty : buildQueryString params = "" := by
      unfold buildQueryString
      rw [hpairs, hcase]
      rfl
    exact ⟨hpairs.trans hcase, by simp [hempty], fun h => absurd rfl h, by decide⟩
  | cons p rest =>
    have hne := serializePairs_cons_ne_empty p rest
    have hb : (serializePairs (p :: rest) == "") = false := beq_eq_false_iff_ne.mpr hne
    have hbq : buildQueryString params = "?" ++ serializePairs (p :: rest) := by
      unfold buildQueryString
      rw [hpairs, hcase]
      simp [hb]
    have hqne : "?" ++ serializePairs (p :: rest) ≠ "" := by
      intro h
      have hd := congrArg String.data h
      simp [String.data_append] at hd
    refine ⟨hpairs.trans hcase, ?_, fun _ => ⟨serializePairs (p :: rest), hbq⟩, by decide⟩
    rw [hbq]
    simp [hqne]

/-- C3 witness: a concrete mapping with a null-valued key, an array-valued
key and a scalar key. -/
theorem C3_witness :
    (List.Nodup (([("a", JSValue.null), ("tags", .arr [.str "x", .str "y"]),
      ("limit", .prim (.num 5))] : List (String × JSValue)).map Prod.fst)) ∧
    buildQueryPairs [("a", JSValue.null), ("tags", .arr [.str "x", .str "y"]),
        ("limit", .prim (.num 5))] =
      [("tags", "x"), ("tags", "y"), ("limit", "5")] := by
  have h := C3_query_string [("a", JSValue.null), ("tags", .arr [.str "x", .str "y"]),
    ("limit", .prim (.num 5))] (by decide)
  exact ⟨by decide, h.1.trans (by decide)⟩

/-- C4: every user-supplied identifier is percent-encoded independently as a
single path segment: the encoded form of any identifier contains no `/`, `?`
or space; the `getRow` path always has exactly 6 slashes and the `pushButton`
path exactly 8, whatever the identifiers contain; and an identifier
containing `/`, `?` or a space appears with that character percent-encoded
(`%2F`, `%3F`, `%20`), including in the final outbound path. -/
theorem C4_path_encoding (s docId tableIdOrName rowIdOrName columnIdOrName : String)
    (u : Bool) :
    ((encodeURIComponent s).data.count '/' = 0 ∧
     (encodeURIComponent s).data.count '?' = 0 ∧
     (encodeURIComponent s).data.count ' ' = 0) ∧
    charCount '/' (getRowPath docId tableIdOrName rowIdOrName u) = 6 ∧
    charCount '/' (pushButtonPath docId tableIdOrName rowIdOrName columnIdOrName) = 8 ∧
    ('/' ∈ s.data → ∃ p q, (encodeURIComponent s).data = p ++ "%2F".data ++ q) ∧
    ('?' ∈ s.data → ∃ p q, (encodeURIComponent s).data = p ++ "%3F".data ++ q) ∧
    (' ' ∈ s.data → ∃ p q, (encodeURIComponent s).data = p ++ "%20".data ++ q) ∧
    ('/' ∈ rowIdOrName.data →
      ∃ p q, (getRowPath docId tableIdOrName rowIdOrName u).data = p ++ "%2F".data ++ q) := by
  have hz : ∀ t : String, ∀ c, c = '/' ∨ c = '?' ∨ c = ' ' →
      (encodeURIComponent t).data.count c = 0 :=
    fun t c hc => count_encodeURIComponent_eq_zero t c hc
  have henc : ∀ t : String, (encodeURIComponent t).data = t.data.flatMap uriEncodeChar :=
    fun _ => rfl
  have hfac : ∀ (t : String) (c : Char), c ∈ t.data →
      ∃ p q, (encodeURIComponent t).data = p ++ uriEncodeChar c ++ q := by
    intro t c hct
    obtain ⟨p, q, hpq⟩ := flatMap_factor_of_mem uriEncodeChar c t.data hct
    exact ⟨p, q, by rw [henc, hpq]⟩
  refine ⟨⟨hz s '/' (by simp), hz s '?' (by simp), hz s ' ' (by simp)⟩, ?_, ?_, ?_, ?_, ?_, ?_⟩
  · unfold charCount getRowPath
    cases u <;>
      simp [String.data_append, List.count_append, hz docId '/' (by simp),
        hz tableIdOrName '/' (by simp), hz rowIdOrName '/' (by simp)]
  · unfold charCount pushButtonPath
    simp [String.data_append, List.count_append, hz docId '/' (by simp),
      hz tableIdOrName '/' (by simp), hz rowIdOrName '/' (by simp),
      hz columnIdOrName '/' (by simp)]
  · intro hmem
    obtain ⟨p, q, hpq⟩ := hfac s '/' hmem
    exact ⟨p, q, by rw [hpq, show uriEncodeChar '/' = "%2F".data from by decide]⟩
  · intro hmem
    obtain ⟨p, q, hpq⟩ := hfac s '?' hmem
    exact ⟨p, q, by rw [hpq, show uriEncodeChar '?' = "%3F".data from by decide]⟩
  · intro hmem
    obtain ⟨p, q, hpq⟩ := hfac s ' ' hmem
    exact ⟨p, q, by rw [hpq, show uriEncodeChar ' ' = "%20".data from by decide]⟩
  · intro hmem
    obtain ⟨p, q, hpq⟩ := hfac rowIdOrName '/' hmem
    have h2F : uriEncodeChar '/' = "%2F".data := by decide
    refine ⟨("/docs/" ++ encodeURIComponent docId ++ "/tables/" ++
      encodeURIComponent tableIdOrName ++ "/rows/").data ++ p,
      q ++ (if u then "?useColumnNames=true" else "").data, ?_⟩
    unfold getRowPath
    simp only [String.data_append, hpq, h2F, List.append_assoc]

/-- C4 witness: a row identifier containing a slash, a question mark and a
space is percent-encoded in the final `getRow` path, which keeps its 6
segments. -/
theorem C4_witness :
    ('/' ∈ ("r/1 x?" : String).data) ∧
    charCount '/' (getRowPath "d" "t" "r/1 x?" false) = 6 ∧
    ∃ p q, (getRowPath "d" "t" "r/1 x?" false).data = p ++ "%2F".data ++ q := by
  have h := C4_path_encoding "r/1 x?" "d" "t" "r/1 x?" "c" false
  exact ⟨by decide, h.2.1, h.2.2.2.2.2.2 (by decide)⟩

end CodaMcp
